import Mathlib

/-!
Shallow embedding of the HexCorp discord AI's order-reporting and storage
modules (`src/ai/orders_reporting.py`, `src/ai/storage.py`).

Timestamps are modelled as integers (minutes for orders, hours for storage);
the Python code stores `str(datetime)` and parses it back with
`datetime.fromisoformat`, which round-trips, so comparisons on the parsed
values are comparisons on the original timestamps.

External collaborators (the discord client, the `roles` module, the DAO
layer in `db/`) are not under `src/`; they are modelled from the spec where
their behaviour decides a claim, and parameterised otherwise.
-/

namespace HexCorp

/-- A guild role as seen through the discord client: an identity plus a
name.  Only the name is ever inspected by the code under `src/`. -/
structure Role where
  id : Nat
  name : String
deriving DecidableEq, Repr

/-- A guild member: display name (from which the 4-digit drone id is
derived), the member's current roles, and the mention string used in
notifications. -/
structure Member where
  display_name : String
  roles : List Role
  mention : String
deriving DecidableEq, Repr

/-- Modelled from the spec: `get_id` from `bot_utils` (not under `src/`)
derives a participant identifier from a display name; the spec keeps it as
an injected lookup function, so we pass it around as a parameter. -/
abbrev GetId := String → Option String

/-- `discord.utils.get(iterable, name=x)`: the first element whose `name`
attribute equals `x`, or `None`. -/
def getRoleByName (rs : List Role) (n : String) : Option Role :=
  rs.find? (fun r => r.name == n)

/-! ## Orders module (`src/ai/orders_reporting.py`) -/

/-- `ActiveOrder` from `orders_reporting.py`: id, drone id, protocol name
and finish time (modelled as an integer timestamp in minutes). -/
structure ActiveOrder where
  id : String
  drone_id : String
  protocol : String
  finish_time : Int
deriving DecidableEq, Repr

/-- Modelled from the spec: the orders table of the row store
(`db/drone_order_dao`, not under `src/`) — fetch all rows. -/
def fetch_all_drone_orders (db : List ActiveOrder) : List ActiveOrder := db

/-- Modelled from the spec: select the active order of a drone by
participant id, `None` when there is none (at most one exists). -/
def get_order_by_drone_id (db : List ActiveOrder) (droneId : String) :
    Option ActiveOrder :=
  db.find? (fun o => o.drone_id == droneId)

/-- Modelled from the spec: insert a row into the orders table. -/
def insert_drone_order (db : List ActiveOrder) (o : ActiveOrder) :
    List ActiveOrder :=
  db ++ [o]

/-- Modelled from the spec: delete the order row with the given primary
key. -/
def delete_drone_order (db : List ActiveOrder) (id : String) :
    List ActiveOrder :=
  db.filter (fun o => o.id != id)

/-- The "already undertaking" reply of `report_order`. -/
def alreadyUndertakingMsg (droneId protocol : String) : String :=
  "HexDrone #" ++ droneId ++ " is already undertaking the " ++ protocol ++
    " protocol."

/-- The out-of-range-duration reply of `report_order`. -/
def badLengthMsg : String :=
  "Drones are not authorized to activate a specific protocol for that length of time. The maximum is 120 minutes."

/-- The activation acknowledgement of `report_order`. -/
def activateMsg (droneId : String) : String :=
  "If safe and willing to do so, Drone " ++ droneId ++
    " Activate.\nDrone " ++ droneId ++
    " will elaborate on its exact tasks before proceeding with them."

/-- `report_order(context, protocol_name, protocol_time)`: returns the
messages sent over `context.send` and the updated orders table.  `now` is
the current time in minutes, `newId` the uuid handed out for a fresh
order. -/
def report_order (db : List ActiveOrder) (getId : GetId)
    (authorDisplayName : String) (protocol_name : String)
    (protocol_time : Int) (now : Int) (newId : String) :
    List String × List ActiveOrder :=
  match getId authorDisplayName with
  | none => ([], db)
  | some drone_id =>
    match get_order_by_drone_id db drone_id with
    | some current_order =>
      ([alreadyUndertakingMsg drone_id current_order.protocol], db)
    | none =>
      if protocol_time > 120 ∨ protocol_time < 1 then
        ([badLengthMsg], db)
      else
        ([activateMsg drone_id],
          insert_drone_order db
            ⟨newId, drone_id, protocol_name, now + protocol_time⟩)

/-- The deactivation notice sent to the orders-reporting channel. -/
def deactivateMsg (mention droneId : String) : String :=
  mention ++ " Drone " ++ droneId ++ " Deactivate.\nDrone " ++ droneId ++
    ", good drone."

/-- One run of a Python `for` loop in which each iteration may raise: the
iteration function returns the updated state plus `some e` when it raises.
A raised exception keeps the effects performed so far and propagates, so
the remaining iterations never run.  (The source has no `try`/`except`.) -/
def scanRowsExc {σ ρ ε : Type} (f : σ → ρ → σ × Option ε) :
    σ → List ρ → σ × Option ε
  | st, [] => (st, none)
  | st, r :: rs =>
    match f st r with
    | (st', none) => scanRowsExc f st' rs
    | (st', some e) => (st', some e)

/-- Processing of one fetched order inside a scan tick of
`check_for_completed_orders`: when the order is expired, the inner loop
walks all guild members (there is no `break`) and, for each member whose
derived id matches, sends the deactivation notice and deletes the row.
`sendFail msg` models `ORDERS_REPORTING_CHANNEL.send(msg)` raising.  The
state is (messages sent so far, orders table). -/
def ordersRowStep (sendFail : String → Option Unit) (getId : GetId)
    (members : List Member) (now : Int)
    (st : List String × List ActiveOrder) (order : ActiveOrder) :
    (List String × List ActiveOrder) × Option Unit :=
  if now > order.finish_time then
    scanRowsExc
      (fun st member =>
        if getId member.display_name == some order.drone_id then
          match sendFail (deactivateMsg member.mention order.drone_id) with
          | some e => (st, some e)
          | none =>
            ((st.1 ++ [deactivateMsg member.mention order.drone_id],
              delete_drone_order st.2 order.id), none)
        else (st, none))
      st members
  else (st, none)

/-- One scan tick of the `while True` loop of
`check_for_completed_orders`: fetch all orders once (a snapshot — the
Python loop iterates the list returned by `fetch_all_drone_orders` while
deletions hit the table), then process each fetched row.  Returns the
(messages sent, final orders table) plus the exception that escaped the
tick, if any. -/
def ordersScanTick (sendFail : String → Option Unit) (getId : GetId)
    (members : List Member) (now : Int) (db : List ActiveOrder) :
    (List String × List ActiveOrder) × Option Unit :=
  scanRowsExc (ordersRowStep sendFail getId members now) ([], db)
    (fetch_all_drone_orders db)

/-- A channel send that never raises, for claims not about failures. -/
def noFail : String → Option Unit := fun _ => none

/-! ## Storage module (`src/ai/storage.py`) -/

/-- `StoredDrone` from `storage.py`: the persisted storage row.  `roles`
is the `|`-joined list of saved role names; `release_time` is an integer
timestamp in hours. -/
structure StoredDrone where
  id : String
  drone_id : String
  target_id : String
  purpose : String
  roles : String
  release_time : Int
deriving DecidableEq, Repr

/-- Modelled from the spec: role-name constants of the `roles` module
(not under `src/`): moderation roles, the implicit everyone role,
booster/supporter roles, the elevated role, the base drone role and the
placeholder stored role. -/
structure RolesConfig where
  MODERATION_ROLES : List String
  EVERYONE : String
  NITRO_BOOSTER : String
  PATREON_SUPPORTER : String
  HIVE_MXTRESS : String
  DRONE : String
  STORED : String
deriving DecidableEq, Repr

/-- The list `roles.MODERATION_ROLES + [roles.EVERYONE,
roles.NITRO_BOOSTER, roles.PATREON_SUPPORTER]` used by
`filter_out_non_removable_roles`. -/
def protectedRoleNames (cfg : RolesConfig) : List String :=
  cfg.MODERATION_ROLES ++ [cfg.EVERYONE, cfg.NITRO_BOOSTER, cfg.PATREON_SUPPORTER]

/-- `filter_out_non_removable_roles`: keep only the roles whose name is
not in the protected list. -/
def filter_out_non_removable_roles (cfg : RolesConfig)
    (unfiltered_roles : List Role) : List Role :=
  unfiltered_roles.filter (fun role => !(protectedRoleNames cfg).contains role.name)

/-- `get_names_for_roles`: the names of the given roles, in order. -/
def get_names_for_roles (rs : List Role) : List String :=
  rs.map Role.name

/-- `get_roles_for_names`: for each name, `discord.utils.get` on the
guild's roles — the Python list may contain `None` entries, so the result
is a list of options. -/
def get_roles_for_names (guildRoles : List Role) (role_names : List String) :
    List (Option Role) :=
  role_names.map (getRoleByName guildRoles)

/-- Modelled from the spec: `has_role` of the `roles` module (not under
`src/`) — whether the member holds a role of the given name. -/
def has_role (memberRoles : List Role) (roleName : String) : Bool :=
  memberRoles.any (fun r => r.name == roleName)

/-- Modelled from the spec: `get_stored_drones` selects all rows of the
storage table. -/
def get_stored_drones (db : List StoredDrone) : List StoredDrone := db

/-- Python `str.lower()` restricted to ASCII content (all content the
code compares against is ASCII). -/
def lowerStr (s : String) : String := String.mk (s.data.map Char.toLower)

/-- Helper for `pySplitPipe`: split a character list at `|` separators,
carrying the current (reversed) segment. -/
def splitPipeAux : List Char → List Char → List String
  | [], acc => [String.mk acc.reverse]
  | c :: cs, acc =>
    if c == '|' then String.mk acc.reverse :: splitPipeAux cs []
    else splitPipeAux cs (c :: acc)

/-- Python `str.split('|')`: the segments between `|` separators (the
empty string splits to `[""]`, exactly as in Python). -/
def pySplitPipe (s : String) : List String := splitPipeAux s.data []

/-- Whether the first list is a prefix of the second. -/
def prefixOfChars : List Char → List Char → Bool
  | [], _ => true
  | _ :: _, [] => false
  | p :: ps, c :: cs => p == c && prefixOfChars ps cs

/-- Python `str.startswith(pre)`. -/
def pyStartsWith (s pre : String) : Bool := prefixOfChars pre.data s.data

/-- Helper for `pyJoinPipe`: join character lists with `|` separators. -/
def joinPipeChars : List (List Char) → List Char
  | [] => []
  | [n] => n
  | n :: ns => n ++ '|' :: joinPipeChars ns

/-- Python `'|'.join(...)`: the strings joined with `|` separators (the
empty list joins to `""`). -/
def pyJoinPipe (ss : List String) : String :=
  String.mk (joinPipeChars (ss.map String.data))

/-- Python `int(...)` on a digit string (the regex guarantees the input
is one or more decimal digits). -/
def pyInt (s : String) : Nat :=
  s.data.foldl (fun n c => 10 * n + (c.toNat - Char.toNat '0')) 0

/-- Split a character list into its maximal leading run of decimal digits
and the rest (the `\d*` maximal munch). -/
def splitDigits : List Char → List Char × List Char
  | [] => ([], [])
  | c :: cs =>
    if c.isDigit then
      let (ds, rest) := splitDigits cs
      (c :: ds, rest)
    else ([], c :: cs)

/-- Drop an expected literal from the front of a character list, `none`
when it does not start with that literal. -/
def dropLit : List Char → List Char → Option (List Char)
  | [], cs => some cs
  | _ :: _, [] => none
  | l :: ls, c :: cs => if c == l then dropLit ls cs else none

/-- `re.findall(MESSAGE_FORMAT, content)` for the anchored pattern
`^(\d{4}) :: (\d{4}) :: (\d+) :: (.*)`: the four captured groups, or
`none` when the pattern does not match a prefix of the message.
`\d{4}` is exactly four digits followed by the literal `\x20::\x20` (a
fifth digit makes the literal fail with no possible backtracking), `\d+`
is a maximal nonempty digit run (the following literal starts with a
space, so maximal munch is equivalent), and `.*` takes the rest of the
line up to a newline. -/
def matchStore (s : String) : Option (String × String × String × String) :=
  let (d1, r1) := splitDigits s.data
  if d1.length == 4 then
    match dropLit (" :: ").data r1 with
    | none => none
    | some r1' =>
      let (d2, r2) := splitDigits r1'
      if d2.length == 4 then
        match dropLit (" :: ").data r2 with
        | none => none
        | some r2' =>
          let (d3, r3) := splitDigits r2'
          if d3.length ≥ 1 then
            match dropLit (" :: ").data r3 with
            | none => none
            | some r3' =>
              some (String.mk d1, String.mk d2, String.mk d3,
                String.mk (r3'.takeWhile (fun c => c != '\n')))
          else none
      else none
  else none

/-- `REJECT_MESSAGE` from `storage.py`. -/
def REJECT_MESSAGE : String :=
  "Invalid input format. Use `[DRONE ID HERE] :: [TARGET DRONE HERE] :: [INTEGER BETWEEN 1 - 24 HERE] :: [RECORDED PURPOSE OF STORAGE HERE]` (exclude brackets)."

/-- The "already in storage" reply. -/
def alreadyStoredMsg (targetId : String) : String :=
  targetId ++ " is already in storage."

/-- The out-of-range-hours reply (uses the raw captured digit string). -/
def notBetweenMsg (time : String) : String :=
  time ++ " is not between 0 and 24."

/-- The target-not-found reply. -/
def notFoundMsg (targetId : String) : String :=
  "Drone with ID " ++ targetId ++ " could not be found."

/-- The storage-chambers notification sent on a successful store. -/
def storedChamberMsg (mention shownId time plural purpose : String) : String :=
  "Greetings " ++ mention ++
    ". You have been stored away in the Hive Storage Chambers by " ++
    shownId ++ " for " ++ time ++ " " ++ plural ++
    " and for the following reason: " ++ purpose

/-- `drone_role in member.roles` — with `drone_role` possibly `None`
(`None` is never an element of a role list). -/
def memberHasRole (r? : Option Role) (m : Member) : Bool :=
  match r? with
  | some r => m.roles.contains r
  | none => false

/-- The result of one call of `Storage.store`: messages sent to the
invoking channel, messages sent to the storage-chambers channel, roles
removed from and added to members (in call order), the storage table
afterwards, and the returned handled flag. -/
structure StoreOutcome where
  channelMsgs : List String
  chamberMsgs : List String
  removedRoles : List (Member × List Role)
  addedRoles : List (Member × List (Option Role))
  db : List StoredDrone
  handled : Bool
deriving DecidableEq, Repr

/-- The member loop at the end of `Storage.store` (the "find target drone
and store it" stage reached once parsing and validation succeed): store
the first guild member whose derived id equals the target id and who
holds the drone role (strip its removable roles, grant the stored role,
persist the row, notify the chambers channel and return `False`), or
report the target as not found and return `True`. -/
def findAndStoreTarget (cfg : RolesConfig) (guildRoles : List Role)
    (members : List Member) (db : List StoredDrone) (getId : GetId)
    (now : Int) (newId : String)
    (drone_id target_id time purpose : String) : StoreOutcome :=
  let stored_role := getRoleByName guildRoles cfg.STORED
  let drone_role := getRoleByName guildRoles cfg.DRONE
  match members.find? (fun m =>
      getId m.display_name == some target_id && memberHasRole drone_role m) with
  | some member =>
    let former_roles := filter_out_non_removable_roles cfg member.roles
    let stored_drone : StoredDrone :=
      ⟨newId, drone_id, target_id, purpose,
        pyJoinPipe (get_names_for_roles former_roles),
        now + (pyInt time : Int)⟩
    let plural := if pyInt time == 1 then "hour" else "hours"
    let shown_id := if drone_id == target_id then "yourself" else drone_id
    ⟨[], [storedChamberMsg member.mention shown_id time plural purpose],
      [(member, former_roles)], [(member, [stored_role])],
      db ++ [stored_drone], false⟩
  | none => ⟨[notFoundMsg target_id], [], [], [], db, true⟩

/-- `Storage.store(message)`: ignore a bare (case-insensitive) "help";
send the fixed rejection for a non-matching message; reject an
already-stored target and an out-of-range hour count; otherwise proceed
to `findAndStoreTarget`. -/
def store (cfg : RolesConfig) (guildRoles : List Role) (members : List Member)
    (db : List StoredDrone) (getId : GetId) (now : Int) (newId : String)
    (content : String) : StoreOutcome :=
  if lowerStr content == "help" then
    ⟨[], [], [], [], db, false⟩
  else
    match matchStore content with
    | none => ⟨[REJECT_MESSAGE], [], [], [], db, true⟩
    | some (drone_id, target_id, time, purpose) =>
      if (db.find? (fun stored => stored.target_id == target_id)).isSome then
        ⟨[alreadyStoredMsg target_id], [], [], [], db, true⟩
      else if ¬ (0 < pyInt time ∧ pyInt time ≤ 24) then
        ⟨[notBetweenMsg time], [], [], [], db, true⟩
      else
        findAndStoreTarget cfg guildRoles members db getId now newId
          drone_id target_id time purpose

/-- A role operation awaited on the discord client during a release:
`remove_roles(stored_role)` with an optional role, or `add_roles(*rs)`
with a list that may contain `None` entries. -/
inductive RoleOp where
  | removeOne (m : Member) (r : Option Role)
  | addMany (m : Member) (rs : List (Option Role))
deriving DecidableEq, Repr

/-- Processing of one fetched storage row inside a tick of
`Storage.release_timed`: if the row is expired, the first member whose
derived id equals the target id (the loop `break`s after it) has the
stored role removed and the saved roles re-added (each saved name looked
up in the guild roles, unresolved names contributing `None`), and the row
is deleted.  `opFail` models a role operation raising; an exception keeps
earlier effects and aborts the scan.  When no member matches, the row is
left in place. -/
def releaseRowStep (opFail : RoleOp → Option Unit) (getId : GetId)
    (guildRoles : List Role) (storedRoleName : String) (members : List Member)
    (now : Int) (st : List RoleOp × List StoredDrone) (stored : StoredDrone) :
    (List RoleOp × List StoredDrone) × Option Unit :=
  if now > stored.release_time then
    match members.find? (fun m => getId m.display_name == some stored.target_id) with
    | none => (st, none)
    | some member =>
      let stored_role := getRoleByName guildRoles storedRoleName
      match opFail (.removeOne member stored_role) with
      | some e => (st, some e)
      | none =>
        let toAdd := get_roles_for_names guildRoles (pySplitPipe stored.roles)
        match opFail (.addMany member toAdd) with
        | some e => ((st.1 ++ [.removeOne member stored_role], st.2), some e)
        | none =>
          ((st.1 ++ [.removeOne member stored_role, .addMany member toAdd],
            st.2.filter (fun d => d.id != stored.id)), none)
  else (st, none)

/-- One scan tick of the `while True` loop of `Storage.release_timed`:
fetch all storage rows once, then process each fetched row.  Returns the
(role operations performed, final storage table) plus the exception that
escaped the tick, if any. -/
def releaseScanTick (opFail : RoleOp → Option Unit) (getId : GetId)
    (guildRoles : List Role) (storedRoleName : String) (members : List Member)
    (now : Int) (db : List StoredDrone) :
    (List RoleOp × List StoredDrone) × Option Unit :=
  scanRowsExc (releaseRowStep opFail getId guildRoles storedRoleName members now)
    ([], db) (get_stored_drones db)

/-- A role operation that never raises. -/
def noOpFail : RoleOp → Option Unit := fun _ => none

/-- The Python exceptions a handler can raise in this model. -/
inductive PyError where
  | indexError
deriving DecidableEq, Repr

/-- The result of one call of `Storage.release`: messages sent, role
operations performed, the storage table afterwards, and the returned
handled flag.  (`Storage.release` has no send call at all — its only
`TODO: maybe answer with a message` comment marks the deliberate
silence — so `msgs` is `[]` on every path.) -/
structure ReleaseOutcome where
  msgs : List String
  roleOps : List RoleOp
  db : List StoredDrone
  handled : Bool
deriving DecidableEq, Repr

/-- `Storage.release(message)`: ignore messages not starting with
"release" (case-insensitive) and unauthorized authors; then index
`message.mentions[0]` — an `IndexError` when there are no mentions — and
release the first storage row whose target id equals the mentioned
member's derived id. -/
def release (cfg : RolesConfig) (guildRoles : List Role)
    (db : List StoredDrone) (getId : GetId) (content : String)
    (authorRoles : List Role) (mentions : List Member) :
    Except PyError ReleaseOutcome :=
  if !pyStartsWith (lowerStr content) "release" then
    .ok ⟨[], [], db, false⟩
  else if !has_role authorRoles cfg.HIVE_MXTRESS then
    .ok ⟨[], [], db, false⟩
  else
    let stored_role := getRoleByName guildRoles cfg.STORED
    match mentions with
    | [] => .error .indexError
    | member :: _ =>
      let to_release_id := getId member.display_name
      match (get_stored_drones db).find? (fun drone =>
          some drone.target_id == to_release_id) with
      | some drone =>
        .ok ⟨[], [.removeOne member stored_role,
              .addMany member (get_roles_for_names guildRoles (pySplitPipe drone.roles))],
            db.filter (fun d => d.id != drone.id), true⟩
      | none => .ok ⟨[], [], db, true⟩

/-! ## Background-loop entry points and their re-entrancy guards -/

/-- The two guard flags of the `Storage` cog. -/
structure StorageFlags where
  reporter_started : Bool
  release_started : Bool
deriving DecidableEq, Repr

/-- The guard prologue of `Storage.report_storage`: return early when
`reporter_started` is set, otherwise set it and enter the `while True`
loop.  The boolean result records whether this call started a running
copy of the loop. -/
def report_storage_entry (f : StorageFlags) : StorageFlags × Bool :=
  if f.reporter_started then (f, false)
  else ({ f with reporter_started := true }, true)

/-- The guard prologue of `Storage.release_timed`, analogous. -/
def release_timed_entry (f : StorageFlags) : StorageFlags × Bool :=
  if f.release_started then (f, false)
  else ({ f with release_started := true }, true)

/-- The prologue of `check_for_completed_orders`: there is no guard — the
body proceeds directly into its `while True` loop, so every call starts a
running copy. -/
def check_for_completed_orders_entry (u : Unit) : Unit × Bool := (u, true)

/-- How many running copies of a loop `n` sequential calls of its entry
point start, threading the guard state. -/
def loopsStarted {σ : Type} (entry : σ → σ × Bool) : σ → Nat → Nat
  | _, 0 => 0
  | s, n + 1 =>
    let p := entry s
    (if p.2 then 1 else 0) + loopsStarted entry p.1 n

/-- The release-time role resolution as the spec words it ("if a name no
longer resolves, that specific role is simply skipped"): each saved name
that still resolves contributes its role, an unresolvable name is
dropped.  This follows the spec, for comparison with
`get_roles_for_names`, which instead keeps a `None` entry. -/
def spec_get_roles_for_names (guildRoles : List Role)
    (role_names : List String) : List Role :=
  role_names.filterMap (getRoleByName guildRoles)

/-- The per-participant uniqueness invariant on the orders table: no two
rows carry the same drone id. -/
def atMostOnePerDrone (db : List ActiveOrder) : Prop :=
  db.Pairwise (fun a b => a.drone_id ≠ b.drone_id)

/-! ## Concrete fixtures for counterexamples and witnesses -/

/-- A concrete roles configuration. -/
def cfgF : RolesConfig :=
  ⟨["Mod"], "@everyone", "Nitro", "Patreon", "Hive Mxtress", "Drone", "Stored"⟩

/-- A plain guild role that is removable under `cfgF`. -/
def roleA : Role := ⟨10, "A"⟩

/-- The drone role under `cfgF`. -/
def droneRoleF : Role := ⟨1, "Drone"⟩

/-- The placeholder stored role under `cfgF`. -/
def storedRoleF : Role := ⟨2, "Stored"⟩

/-- The elevated role under `cfgF`. -/
def hiveRoleF : Role := ⟨3, "Hive Mxtress"⟩

/-- A member whose display name is its drone id. -/
def memberF : Member := ⟨"5678", [roleA, droneRoleF], "@m"⟩

/-- A derived-identifier function that reads the display name as the id. -/
def gidF : GetId := fun s => some s

/-! ## Helper lemmas -/

/-- A scan whose step leaves the state unchanged and raises nothing on
every row of the list returns the initial state. -/
theorem scanRowsExc_fixed {σ ρ ε : Type} (f : σ → ρ → σ × Option ε) (st : σ) :
    ∀ l : List ρ, (∀ r ∈ l, f st r = (st, none)) →
      scanRowsExc f st l = (st, none)
  | [], _ => rfl
  | r :: rs, h => by
    have hr := h r (List.mem_cons_self r rs)
    simp only [scanRowsExc, hr]
    exact scanRowsExc_fixed f st rs fun x hx => h x (List.mem_cons_of_mem r hx)

/-- A raise in the first row's processing makes the whole scan return
that row's partial state and exception — the remaining rows are never
examined. -/
theorem scanRowsExc_abort {σ ρ ε : Type} (f : σ → ρ → σ × Option ε)
    (st st' : σ) (e : ε) (r : ρ) (rs : List ρ) (h : f st r = (st', some e)) :
    scanRowsExc f st (r :: rs) = (st', some e) := by
  simp only [scanRowsExc, h]

/-- ASCII lowering fixes decimal digits. -/
theorem toLower_of_isDigit (c : Char) (h : c.isDigit = true) :
    c.toLower = c := by
  simp only [Char.isDigit, ge_iff_le, Bool.and_eq_true, decide_eq_true_eq] at h
  unfold Char.toLower
  rw [if_neg]
  rintro ⟨h1, _⟩
  have h2 : c.toNat ≤ 57 := UInt32.toNat_le_of_le (by decide) h.2
  omega

/-- A message that lowercases to "help" starts with a non-digit, so it
cannot match the storage pattern. -/
theorem matchStore_of_lower_help (s : String) (h : lowerStr s = "help") :
    matchStore s = none := by
  have hdata : s.data.map Char.toLower = "help".data := by
    simpa [lowerStr] using congrArg String.data h
  cases hs : s.data with
  | nil => rw [hs] at hdata; exact absurd hdata (by decide)
  | cons a rest =>
    rw [hs] at hdata
    have ha : a.toLower = 'h' := by
      have := congrArg List.head? hdata
      simpa using this
    unfold matchStore
    rw [hs]
    cases hd : a.isDigit with
    | true =>
      exfalso
      have hah : a = 'h' := by rw [← toLower_of_isDigit a hd, ha]
      rw [hah] at hd
      exact absurd hd (by decide)
    | false => simp [splitDigits, hd]

/-- Splitting walks over a pipe-free chunk by accumulating it. -/
theorem splitPipeAux_append (xs : List Char) (hx : ∀ c ∈ xs, c ≠ '|') :
    ∀ (cs acc : List Char),
      splitPipeAux (xs ++ cs) acc = splitPipeAux cs (xs.reverse ++ acc) := by
  induction xs with
  | nil => intro cs acc; rfl
  | cons x xt ih =>
    intro cs acc
    have hx0 : (x == '|') = false := by
      simp only [beq_eq_false_iff_ne]
      exact hx x (List.mem_cons_self x xt)
    simp only [List.cons_append, List.append_eq, splitPipeAux, hx0,
      Bool.false_eq_true, if_false]
    rw [ih (fun c hc => hx c (List.mem_cons_of_mem x hc)) cs (x :: acc)]
    simp

/-- Python round trip: splitting a `|`-join of pipe-free names recovers
the names, provided the list is nonempty (the empty list joins to `""`,
which splits to `[""]`). -/
theorem pySplitPipe_pyJoinPipe : ∀ names : List String, names ≠ [] →
    (∀ n ∈ names, ∀ c ∈ n.data, c ≠ '|') →
    pySplitPipe (pyJoinPipe names) = names
  | [], h, _ => absurd rfl h
  | [n], _, hp => by
    show splitPipeAux n.data [] = [n]
    have h1 := splitPipeAux_append n.data (hp n (List.mem_singleton.mpr rfl)) [] []
    rw [List.append_nil] at h1
    rw [h1]
    simp only [List.append_nil]
    show [String.mk n.data.reverse.reverse] = [n]
    rw [List.reverse_reverse]
  | n :: m :: ns, _, hp => by
    show splitPipeAux (n.data ++ '|' :: joinPipeChars ((m :: ns).map String.data)) [] =
      n :: m :: ns
    rw [splitPipeAux_append n.data (hp n (List.mem_cons_self n (m :: ns))) _ []]
    simp only [splitPipeAux, beq_self_eq_true, if_true, List.append_nil,
      List.reverse_reverse]
    rw [show splitPipeAux (joinPipeChars ((m :: ns).map String.data)) [] =
        pySplitPipe (pyJoinPipe (m :: ns)) from rfl]
    rw [pySplitPipe_pyJoinPipe (m :: ns) (by simp)
      (fun x hx => hp x (List.mem_cons_of_mem n hx))]

/-- Once `reporter_started` is set, further calls of
`report_storage_entry` start nothing. -/
theorem loopsStarted_report_stuck (f : StorageFlags)
    (h : f.reporter_started = true) :
    ∀ n, loopsStarted report_storage_entry f n = 0
  | 0 => rfl
  | n + 1 => by
    simp only [loopsStarted, report_storage_entry, h, if_true,
      Bool.false_eq_true, if_false, Nat.zero_add]
    exact loopsStarted_report_stuck f h n

/-- Once `release_started` is set, further calls of `release_timed_entry`
start nothing. -/
theorem loopsStarted_release_stuck (f : StorageFlags)
    (h : f.release_started = true) :
    ∀ n, loopsStarted release_timed_entry f n = 0
  | 0 => rfl
  | n + 1 => by
    simp only [loopsStarted, release_timed_entry, h, if_true,
      Bool.false_eq_true, if_false, Nat.zero_add]
    exact loopsStarted_release_stuck f h n

/-- Every call of the unguarded orders entry point starts a copy. -/
theorem loopsStarted_orders_entry :
    ∀ n, loopsStarted check_for_completed_orders_entry () n = n
  | 0 => rfl
  | n + 1 => by
    simp only [loopsStarted, check_for_completed_orders_entry, if_true]
    rw [loopsStarted_orders_entry n]
    omega

/-! ## Claim theorems -/

/-- C5: at most one `ActiveOrder` per participant id is preserved by
`report_order`, and an invoker who already has an active order gets the
"already undertaking" message while the table is left unchanged (nothing
inserted, the existing order untouched). -/
theorem report_order_unique_per_drone (db : List ActiveOrder) (getId : GetId)
    (author pname : String) (pt now : Int) (nid : String) :
    (∀ drone_id cur, getId author = some drone_id →
      get_order_by_drone_id db drone_id = some cur →
      report_order db getId author pname pt now nid =
        ([alreadyUndertakingMsg drone_id cur.protocol], db)) ∧
    (atMostOnePerDrone db →
      atMostOnePerDrone (report_order db getId author pname pt now nid).2) := by
  constructor
  · intro d cur hid hcur
    simp only [report_order, hid, hcur]
  · intro hinv
    cases hgid : getId author with
    | none => simp only [report_order, hgid]; exact hinv
    | some d =>
      cases hcur : get_order_by_drone_id db d with
      | some cur => simp only [report_order, hgid, hcur]; exact hinv
      | none =>
        simp only [report_order, hgid, hcur]
        by_cases hpt : pt > 120 ∨ pt < 1
        · rw [if_pos hpt]; exact hinv
        · rw [if_neg hpt]
          show atMostOnePerDrone (insert_drone_order db ⟨nid, d, pname, now + pt⟩)
          unfold insert_drone_order atMostOnePerDrone
          rw [List.pairwise_append]
          refine ⟨hinv, List.pairwise_singleton _ _, ?_⟩
          intro a ha b hb
          have hb' : b = ⟨nid, d, pname, now + pt⟩ := by simpa using hb
          subst hb'
          have hfind := List.find?_eq_none.mp hcur a ha
          simp only [beq_iff_eq] at hfind
          exact hfind

/-- C6: with a resolvable invoker id and no existing order, a duration
outside `[1, 120]` is rejected with the length message and nothing is
inserted, while a duration inside `[1, 120]` is acknowledged and an order
with `finish_time = now + protocol_time` is appended to the table. -/
theorem report_order_duration_bound (db : List ActiveOrder) (getId : GetId)
    (author pname : String) (pt now : Int) (nid drone_id : String)
    (hid : getId author = some drone_id)
    (hno : get_order_by_drone_id db drone_id = none) :
    ((pt < 1 ∨ pt > 120) →
      report_order db getId author pname pt now nid = ([badLengthMsg], db)) ∧
    (1 ≤ pt → pt ≤ 120 →
      report_order db getId author pname pt now nid =
        ([activateMsg drone_id], db ++ [⟨nid, drone_id, pname, now + pt⟩])) := by
  simp only [report_order, hid, hno]
  constructor
  · intro h
    rw [if_pos (show pt > 120 ∨ pt < 1 by omega)]
  · intro h1 h2
    rw [if_neg (show ¬ (pt > 120 ∨ pt < 1) by omega)]
    rfl

/-- Witness for C5 at a concrete table and invoker. -/
theorem report_order_unique_per_drone_witness :
    report_order [⟨"a", "1234", "obedience", 5⟩] gidF "1234" "y" 3 0 "u" =
      ([alreadyUndertakingMsg "1234" "obedience"],
        [⟨"a", "1234", "obedience", 5⟩]) ∧
    atMostOnePerDrone (report_order [] gidF "1234" "y" 3 0 "u").2 :=
  ⟨(report_order_unique_per_drone [⟨"a", "1234", "obedience", 5⟩] gidF
      "1234" "y" 3 0 "u").1 "1234" ⟨"a", "1234", "obedience", 5⟩ rfl rfl,
   (report_order_unique_per_drone [] gidF "1234" "y" 3 0 "u").2
      (by simp [atMostOnePerDrone])⟩

/-- Witness for C6 at the durations 0 (rejected) and 60 (accepted). -/
theorem report_order_duration_bound_witness :
    report_order [] gidF "9999" "obedience" 0 100 "u1" = ([badLengthMsg], []) ∧
    report_order [] gidF "9999" "obedience" 60 100 "u1" =
      ([activateMsg "9999"], [⟨"u1", "9999", "obedience", 100 + 60⟩]) :=
  ⟨(report_order_duration_bound [] gidF "9999" "obedience" 0 100 "u1" "9999"
      rfl rfl).1 (Or.inl (by decide)),
   (report_order_duration_bound [] gidF "9999" "obedience" 60 100 "u1" "9999"
      rfl rfl).2 (by decide) (by decide)⟩

/-- C1 (counterexample): an expired order whose drone id matches no
member is NOT deleted by the scan tick — the table still holds the row
afterwards, nothing is sent, and the result differs from the deleted
table the claim requires. -/
theorem orders_expiry_missing_member_row_retained_cex :
    (ordersScanTick noFail gidF [] 1 [⟨"o1", "1234", "obedience", 0⟩]).1.2 =
      [⟨"o1", "1234", "obedience", 0⟩] ∧
    (ordersScanTick noFail gidF [] 1 [⟨"o1", "1234", "obedience", 0⟩]).1.1 = [] ∧
    (ordersScanTick noFail gidF [] 1 [⟨"o1", "1234", "obedience", 0⟩]).1.2 ≠
      delete_drone_order [⟨"o1", "1234", "obedience", 0⟩] "o1" :=
  ⟨rfl, rfl, by decide⟩

/-- C1 (amended): the order expiry tick deletes an expired row only when
some member's derived identifier equals the order's drone id — when no
member matches any order, the tick leaves the table unchanged and sends
nothing (the row is retried next tick); when the single matching member
exists, the expired row is deleted and the deactivation notice sent. -/
theorem orders_expiry_delete_requires_member (getId : GetId) :
    (∀ (members : List Member) (now : Int) (db : List ActiveOrder),
      (∀ m ∈ members, ∀ o ∈ db, getId m.display_name ≠ some o.drone_id) →
      ordersScanTick noFail getId members now db = (([], db), none)) ∧
    (∀ (m : Member) (o : ActiveOrder) (now : Int),
      getId m.display_name = some o.drone_id → now > o.finish_time →
      ordersScanTick noFail getId [m] now [o] =
        (([deactivateMsg m.mention o.drone_id], []), none)) := by
  constructor
  · intro members now db h
    unfold ordersScanTick fetch_all_drone_orders
    apply scanRowsExc_fixed
    intro o ho
    unfold ordersRowStep
    by_cases hexp : now > o.finish_time
    · rw [if_pos hexp]
      apply scanRowsExc_fixed
      intro m hm
      have hne : (getId m.display_name == some o.drone_id) = false := by
        simp only [beq_eq_false_iff_ne]
        exact h m hm o ho
      simp only [hne, Bool.false_eq_true, if_false]
    · rw [if_neg hexp]
  · intro m o now hid hexp
    simp only [ordersScanTick, fetch_all_drone_orders, scanRowsExc,
      ordersRowStep, if_pos hexp, hid, beq_self_eq_true, if_true, noFail,
      delete_drone_order, List.filter, bne_self_eq_false, List.nil_append]

/-- Witness for the amended C1: a no-member tick keeps the row; a
matching-member tick deletes it and sends the notice. -/
theorem orders_expiry_delete_requires_member_witness :
    ordersScanTick noFail gidF [] 1 [⟨"o2", "4321", "p", 0⟩] =
      (([], [⟨"o2", "4321", "p", 0⟩]), none) ∧
    ordersScanTick noFail gidF [⟨"4321", [], "@x"⟩] 1 [⟨"o2", "4321", "p", 0⟩] =
      (([deactivateMsg "@x" "4321"], []), none) :=
  ⟨(orders_expiry_delete_requires_member gidF).1 [] 1 [⟨"o2", "4321", "p", 0⟩]
      (by simp),
   (orders_expiry_delete_requires_member gidF).2 ⟨"4321", [], "@x"⟩
      ⟨"o2", "4321", "p", 0⟩ 1 rfl (by decide)⟩

/-- C4 (counterexample): with two expired orders, each with a matching
member, a send failure on the first order's row aborts the whole tick —
the second row is left unprocessed (still in the table, no message) and
the exception escapes the tick (terminating the `while True` loop);
without the failure the same tick processes both rows. -/
theorem row_failure_aborts_scan_cex :
    ordersScanTick (fun _ => some ()) gidF
        [⟨"1111", [], "@1"⟩, ⟨"2222", [], "@2"⟩] 1
        [⟨"o1", "1111", "p", 0⟩, ⟨"o2", "2222", "q", 0⟩] =
      (([], [⟨"o1", "1111", "p", 0⟩, ⟨"o2", "2222", "q", 0⟩]), some ()) ∧
    ordersScanTick noFail gidF
        [⟨"1111", [], "@1"⟩, ⟨"2222", [], "@2"⟩] 1
        [⟨"o1", "1111", "p", 0⟩, ⟨"o2", "2222", "q", 0⟩] =
      (([deactivateMsg "@1" "1111", deactivateMsg "@2" "2222"], []), none) :=
  ⟨rfl, rfl⟩

/-- C4 (amended): there is no per-row isolation — in both the order
expiry tick and the storage release tick, an exception raised while
processing the first fetched row makes the whole scan stop with exactly
that row's partial effects, never reaching the remaining rows, and the
exception propagates out of the tick (terminating the loop). -/
theorem row_failure_aborts_scan_amended :
    (∀ (sendFail : String → Option Unit) (getId : GetId)
        (members : List Member) (now : Int) (o : ActiveOrder)
        (rest : List ActiveOrder) (st' : List String × List ActiveOrder)
        (e : Unit),
      ordersRowStep sendFail getId members now ([], o :: rest) o =
        (st', some e) →
      ordersScanTick sendFail getId members now (o :: rest) = (st', some e)) ∧
    (∀ (opFail : RoleOp → Option Unit) (getId : GetId)
        (guildRoles : List Role) (srn : String) (members : List Member)
        (now : Int) (s : StoredDrone) (rest : List StoredDrone)
        (st' : List RoleOp × List StoredDrone) (e : Unit),
      releaseRowStep opFail getId guildRoles srn members now ([], s :: rest) s =
        (st', some e) →
      releaseScanTick opFail getId guildRoles srn members now (s :: rest) =
        (st', some e)) := by
  constructor
  · intro sendFail getId members now o rest st' e h
    unfold ordersScanTick fetch_all_drone_orders
    exact scanRowsExc_abort _ _ _ _ _ _ h
  · intro opFail getId guildRoles srn members now s rest st' e h
    unfold releaseScanTick get_stored_drones
    exact scanRowsExc_abort _ _ _ _ _ _ h

/-- Witness for the amended C4 on concrete two-row tables for both
loops. -/
theorem row_failure_aborts_scan_amended_witness :
    ordersScanTick (fun _ => some ()) gidF [⟨"1111", [], "@1"⟩] 1
        [⟨"o1", "1111", "p", 0⟩, ⟨"o2", "2222", "q", 0⟩] =
      (([], [⟨"o1", "1111", "p", 0⟩, ⟨"o2", "2222", "q", 0⟩]), some ()) ∧
    releaseScanTick (fun _ => some ()) gidF [storedRoleF] "Stored"
        [⟨"5678", [], "@m"⟩] 3
        [⟨"s1", "1234", "5678", "r", "A", 2⟩, ⟨"s2", "1234", "9012", "r", "A", 2⟩] =
      (([], [⟨"s1", "1234", "5678", "r", "A", 2⟩,
             ⟨"s2", "1234", "9012", "r", "A", 2⟩]), some ()) :=
  ⟨row_failure_aborts_scan_amended.1 (fun _ => some ()) gidF
      [⟨"1111", [], "@1"⟩] 1 ⟨"o1", "1111", "p", 0⟩
      [⟨"o2", "2222", "q", 0⟩] _ () (by decide),
   row_failure_aborts_scan_amended.2 (fun _ => some ()) gidF [storedRoleF]
      "Stored" [⟨"5678", [], "@m"⟩] 3 ⟨"s1", "1234", "5678", "r", "A", 2⟩
      [⟨"s2", "1234", "9012", "r", "A", 2⟩] _ () (by decide)⟩

/-- C3 (counterexample): the order expiry loop's entry point has no
re-entrancy guard — two calls start two running copies of the loop, more
than the single copy the claim allows. -/
theorem orders_loop_unguarded_cex :
    loopsStarted check_for_completed_orders_entry () 2 = 2 ∧
    ¬ loopsStarted check_for_completed_orders_entry () 2 ≤ 1 := by
  decide

/-- C3 (amended): the two storage loops are flag-guarded — any positive
number of calls of `report_storage` or `release_timed` starts exactly one
running copy — but the order expiry loop is unguarded: `n` calls of
`check_for_completed_orders` start `n` copies. -/
theorem loop_guard_amended (n : Nat) (h : 1 ≤ n) :
    loopsStarted report_storage_entry ⟨false, false⟩ n = 1 ∧
    loopsStarted release_timed_entry ⟨false, false⟩ n = 1 ∧
    loopsStarted check_for_completed_orders_entry () n = n := by
  obtain ⟨m, rfl⟩ : ∃ m, n = m + 1 := ⟨n - 1, by omega⟩
  refine ⟨?_, ?_, loopsStarted_orders_entry _⟩
  · simp only [loopsStarted, report_storage_entry, Bool.false_eq_true,
      if_false, if_true]
    rw [loopsStarted_report_stuck _ rfl m]
  · simp only [loopsStarted, release_timed_entry, Bool.false_eq_true,
      if_false, if_true]
    rw [loopsStarted_release_stuck _ rfl m]

/-- Witness for the amended C3 at three calls. -/
theorem loop_guard_amended_witness :
    loopsStarted report_storage_entry ⟨false, false⟩ 3 = 1 ∧
    loopsStarted release_timed_entry ⟨false, false⟩ 3 = 1 ∧
    loopsStarted check_for_completed_orders_entry () 3 = 3 :=
  loop_guard_amended 3 (by decide)

/-- C7: for a message matching the store pattern whose target is not yet
stored, an hour count outside `(0, 24]` is rejected with the
"not between 0 and 24" channel message — no role change, no chamber
message, no row insert — while an hour count inside `(0, 24]` proceeds to
the find-and-store stage. -/
theorem store_hour_bound (cfg : RolesConfig) (guildRoles : List Role)
    (members : List Member) (db : List StoredDrone) (getId : GetId)
    (now : Int) (newId content d t time p : String)
    (hm : matchStore content = some (d, t, time, p))
    (hfree : db.find? (fun stored => stored.target_id == t) = none) :
    (¬ (0 < pyInt time ∧ pyInt time ≤ 24) →
      store cfg guildRoles members db getId now newId content =
        ⟨[notBetweenMsg time], [], [], [], db, true⟩) ∧
    (0 < pyInt time → pyInt time ≤ 24 →
      store cfg guildRoles members db getId now newId content =
        findAndStoreTarget cfg guildRoles members db getId now newId
          d t time p) := by
  have hhelp : (lowerStr content == "help") = false := by
    rw [beq_eq_false_iff_ne]
    intro hl
    rw [matchStore_of_lower_help content hl] at hm
    exact Option.noConfusion hm
  constructor
  · intro hrange
    simp only [store, hhelp, Bool.false_eq_true, if_false, hm, hfree,
      Option.isSome_none]
    rw [if_pos hrange]
  · intro h1 h2
    simp only [store, hhelp, Bool.false_eq_true, if_false, hm, hfree,
      Option.isSome_none]
    rw [if_neg (fun hc => hc ⟨h1, h2⟩)]

/-- Witness for C7 at hour counts 25 (rejected) and 24 (accepted). -/
theorem store_hour_bound_witness :
    store cfgF [] [] [] gidF 0 "u" "1234 :: 5678 :: 25 :: p" =
      ⟨[notBetweenMsg "25"], [], [], [], [], true⟩ ∧
    store cfgF [] [] [] gidF 0 "u" "1234 :: 5678 :: 24 :: p" =
      findAndStoreTarget cfgF [] [] [] gidF 0 "u" "1234" "5678" "24" "p" :=
  ⟨(store_hour_bound cfgF [] [] [] gidF 0 "u" "1234 :: 5678 :: 25 :: p"
      "1234" "5678" "25" "p" rfl rfl).1 (by decide),
   (store_hour_bound cfgF [] [] [] gidF 0 "u" "1234 :: 5678 :: 24 :: p"
      "1234" "5678" "24" "p" rfl rfl).2 (by decide) (by decide)⟩

/-- C8: a message that lowercases to exactly "help" gets no response from
the store handler and is not claimed; any other message that fails the
`dddd :: dddd :: digits :: text` pattern gets exactly the fixed
`REJECT_MESSAGE` and is claimed as handled. -/
theorem store_help_and_reject_format (cfg : RolesConfig)
    (guildRoles : List Role) (members : List Member) (db : List StoredDrone)
    (getId : GetId) (now : Int) (newId content : String) :
    (lowerStr content = "help" →
      store cfg guildRoles members db getId now newId content =
        ⟨[], [], [], [], db, false⟩) ∧
    (lowerStr content ≠ "help" → matchStore content = none →
      store cfg guildRoles members db getId now newId content =
        ⟨[REJECT_MESSAGE], [], [], [], db, true⟩) := by
  constructor
  · intro h
    simp only [store, h, beq_self_eq_true, if_true]
  · intro h hm
    have hb : (lowerStr content == "help") = false := beq_eq_false_iff_ne.mpr h
    simp only [store, hb, Bool.false_eq_true, if_false, hm]

/-- Witness for C8 on "HeLp" (silent) and the malformed
`12 :: 1234 :: 3 :: x` (fixed rejection, handled). -/
theorem store_help_and_reject_format_witness :
    store cfgF [] [] [] gidF 0 "u" "HeLp" = ⟨[], [], [], [], [], false⟩ ∧
    store cfgF [] [] [] gidF 0 "u" "12 :: 1234 :: 3 :: x" =
      ⟨[REJECT_MESSAGE], [], [], [], [], true⟩ :=
  ⟨(store_help_and_reject_format cfgF [] [] [] gidF 0 "u" "HeLp").1 rfl,
   (store_help_and_reject_format cfgF [] [] [] gidF 0 "u"
      "12 :: 1234 :: 3 :: x").2 (by decide) rfl⟩

/-- C9: a release invocation by an author without the elevated role, or
one whose mentioned member matches no stored row, ends with no message
sent, no role operation and the table unchanged (the unauthorized case is
not even claimed as handled). -/
theorem release_silent_on_unauthorized_or_no_match (cfg : RolesConfig)
    (guildRoles : List Role) (db : List StoredDrone) (getId : GetId)
    (content : String) (authorRoles : List Role) (mentions : List Member) :
    (has_role authorRoles cfg.HIVE_MXTRESS = false →
      release cfg guildRoles db getId content authorRoles mentions =
        .ok ⟨[], [], db, false⟩) ∧
    (∀ member rest, pyStartsWith (lowerStr content) "release" = true →
      has_role authorRoles cfg.HIVE_MXTRESS = true →
      mentions = member :: rest →
      (∀ drone ∈ db, some drone.target_id ≠ getId member.display_name) →
      release cfg guildRoles db getId content authorRoles mentions =
        .ok ⟨[], [], db, true⟩) := by
  constructor
  · intro h
    by_cases hs : pyStartsWith (lowerStr content) "release" = true
    · simp only [release, hs, Bool.not_true, Bool.false_eq_true, if_false,
        h, Bool.not_false, if_true]
    · have hs' : pyStartsWith (lowerStr content) "release" = false := by
        revert hs
        cases pyStartsWith (lowerStr content) "release" <;> simp
      simp only [release, hs', Bool.not_false, if_true]
  · intro member rest hs hr hm hmatch
    subst hm
    have hfind : db.find?
        (fun drone => some drone.target_id == getId member.display_name) =
        none := by
      rw [List.find?_eq_none]
      intro d hd
      simp only [Bool.not_eq_true, beq_eq_false_iff_ne]
      exact hmatch d hd
    simp only [release, hs, Bool.not_true, Bool.false_eq_true, if_false, hr,
      get_stored_drones, hfind]

/-- Witness for C9: an unauthorized invocation and an authorized one with
a non-matching mention, both silent and state-preserving. -/
theorem release_silent_witness :
    release cfgF [storedRoleF] [] gidF "release" [] [memberF] =
      .ok ⟨[], [], [], false⟩ ∧
    release cfgF [storedRoleF] [⟨"s1", "1234", "9012", "r", "A", 2⟩] gidF
        "release" [hiveRoleF] [memberF] =
      .ok ⟨[], [], [⟨"s1", "1234", "9012", "r", "A", 2⟩], true⟩ :=
  ⟨(release_silent_on_unauthorized_or_no_match cfgF [storedRoleF] [] gidF
      "release" [] [memberF]).1 rfl,
   (release_silent_on_unauthorized_or_no_match cfgF [storedRoleF]
      [⟨"s1", "1234", "9012", "r", "A", 2⟩] gidF "release" [hiveRoleF]
      [memberF]).2 memberF [] rfl rfl rfl (by decide)⟩

/-- C10: a "release" message from an author holding the elevated role but
with an empty mention list makes the handler's `message.mentions[0]`
raise an `IndexError` — the call errors instead of completing or being
silently ignored. -/
theorem release_no_mentions_index_error :
    release cfgF [storedRoleF] [] gidF "release" [hiveRoleF] [] =
      .error .indexError := rfl

/-- C2 (counterexample): storing `memberF` captures the serialized roles
`"A|Drone"`; if the role named `A` has been deleted from the guild by
release time, the release tick passes `[None, Drone]` to the role-add
call — the unresolvable name contributes a `None` entry instead of being
skipped, so the restored list is not the spec's skipped list. -/
theorem storage_roundtrip_unresolved_not_skipped_cex :
    (store cfgF [roleA, droneRoleF, storedRoleF] [memberF] [] gidF 0 "u"
        "1234 :: 5678 :: 2 :: rest").db =
      [⟨"u", "1234", "5678", "rest", "A|Drone", 2⟩] ∧
    (releaseScanTick noOpFail gidF [droneRoleF, storedRoleF] "Stored"
        [memberF] 3 [⟨"u", "1234", "5678", "rest", "A|Drone", 2⟩]).1.1 =
      [.removeOne memberF (some storedRoleF),
        .addMany memberF [none, some droneRoleF]] ∧
    get_roles_for_names [droneRoleF, storedRoleF] (pySplitPipe "A|Drone") ≠
      (spec_get_roles_for_names [droneRoleF, storedRoleF]
        (pySplitPipe "A|Drone")).map some :=
  ⟨rfl, rfl, by decide⟩

/-- C2 (amended): a successful store persists exactly the member's roles
at store time minus the protected set (serialized `|`-joined, in order);
releasing — manually via `release` or automatically via the
`release_timed` row step — hands the role-add call the lookup of each
saved name in order, an unresolvable name contributing a `None` entry
rather than being skipped; when every saved name still resolves to its
original role (and the captured set is nonempty with pipe-free names),
exactly the captured set is restored. -/
theorem storage_roundtrip_amended :
    (∀ (cfg : RolesConfig) (guildRoles : List Role) (members : List Member)
        (db : List StoredDrone) (getId : GetId) (now : Int)
        (newId content d t time p : String) (member : Member),
      matchStore content = some (d, t, time, p) →
      db.find? (fun stored => stored.target_id == t) = none →
      0 < pyInt time → pyInt time ≤ 24 →
      members.find? (fun m => getId m.display_name == some t &&
        memberHasRole (getRoleByName guildRoles cfg.DRONE) m) = some member →
      (store cfg guildRoles members db getId now newId content).db =
        db ++ [⟨newId, d, t, p,
          pyJoinPipe (get_names_for_roles
            (filter_out_non_removable_roles cfg member.roles)),
          now + (pyInt time : Int)⟩] ∧
      (store cfg guildRoles members db getId now newId content).removedRoles =
        [(member, filter_out_non_removable_roles cfg member.roles)]) ∧
    (∀ (cfg : RolesConfig) (guildRoles : List Role) (db : List StoredDrone)
        (getId : GetId) (content : String) (authorRoles : List Role)
        (member : Member) (rest : List Member) (drone : StoredDrone),
      pyStartsWith (lowerStr content) "release" = true →
      has_role authorRoles cfg.HIVE_MXTRESS = true →
      db.find? (fun dr => some dr.target_id == getId member.display_name) =
        some drone →
      release cfg guildRoles db getId content authorRoles (member :: rest) =
        .ok ⟨[], [.removeOne member (getRoleByName guildRoles cfg.STORED),
          .addMany member (get_roles_for_names guildRoles
            (pySplitPipe drone.roles))],
          db.filter (fun x => x.id != drone.id), true⟩) ∧
    (∀ (getId : GetId) (guildRoles : List Role) (srn : String)
        (members : List Member) (now : Int)
        (st : List RoleOp × List StoredDrone) (stored : StoredDrone)
        (member : Member),
      now > stored.release_time →
      members.find? (fun m =>
        getId m.display_name == some stored.target_id) = some member →
      releaseRowStep noOpFail getId guildRoles srn members now st stored =
        ((st.1 ++ [.removeOne member (getRoleByName guildRoles srn),
          .addMany member (get_roles_for_names guildRoles
            (pySplitPipe stored.roles))],
          st.2.filter (fun d => d.id != stored.id)), none)) ∧
    (∀ (guildRoles : List Role) (former : List Role), former ≠ [] →
      (∀ r ∈ former, ∀ c ∈ r.name.data, c ≠ '|') →
      (∀ r ∈ former, getRoleByName guildRoles r.name = some r) →
      get_roles_for_names guildRoles
        (pySplitPipe (pyJoinPipe (get_names_for_roles former))) =
        former.map some) := by
  refine ⟨?_, ?_, ?_, ?_⟩
  · intro cfg guildRoles members db getId now newId content d t time p
      member hm hfree h1 h2 hfindm
    have hhelp : (lowerStr content == "help") = false := by
      rw [beq_eq_false_iff_ne]
      intro hl
      rw [matchStore_of_lower_help content hl] at hm
      exact Option.noConfusion hm
    have hs : store cfg guildRoles members db getId now newId content =
        findAndStoreTarget cfg guildRoles members db getId now newId
          d t time p := by
      simp only [store, hhelp, Bool.false_eq_true, if_false, hm, hfree,
        Option.isSome_none]
      rw [if_neg (fun hc => hc ⟨h1, h2⟩)]
    rw [hs]
    simp only [findAndStoreTarget, hfindm]
    exact ⟨trivial, trivial⟩
  · intro cfg guildRoles db getId content authorRoles member rest drone
      hs hr hfd
    simp only [release, hs, Bool.not_true, Bool.false_eq_true, if_false, hr,
      get_stored_drones, hfd]
  · intro getId guildRoles srn members now st stored member hexp hfindm
    simp only [releaseRowStep, if_pos hexp, hfindm, noOpFail]
  · intro guildRoles former hne hp hres
    have hnames_ne : get_names_for_roles former ≠ [] := by
      cases former with
      | nil => exact absurd rfl hne
      | cons a l => simp [get_names_for_roles]
    have hnames_pipe : ∀ n ∈ get_names_for_roles former,
        ∀ c ∈ n.data, c ≠ '|' := by
      intro n hn c hc
      simp only [get_names_for_roles] at hn
      obtain ⟨r, hr, rfl⟩ := List.mem_map.mp hn
      exact hp r hr c hc
    rw [pySplitPipe_pyJoinPipe (get_names_for_roles former) hnames_ne
      hnames_pipe]
    simp only [get_roles_for_names, get_names_for_roles, List.map_map]
    apply List.map_congr_left
    intro r hr
    exact hres r hr

/-- Witness for the amended C2 with a concrete store, manual release,
automatic release row step and fully-resolvable round trip. -/
theorem storage_roundtrip_amended_witness :
    ((store cfgF [roleA, droneRoleF, storedRoleF] [memberF] [] gidF 0 "u"
        "1234 :: 5678 :: 2 :: rest").db =
      [] ++ [⟨"u", "1234", "5678", "rest",
        pyJoinPipe (get_names_for_roles
          (filter_out_non_removable_roles cfgF memberF.roles)),
        0 + (pyInt "2" : Int)⟩] ∧
      (store cfgF [roleA, droneRoleF, storedRoleF] [memberF] [] gidF 0 "u"
        "1234 :: 5678 :: 2 :: rest").removedRoles =
      [(memberF, filter_out_non_removable_roles cfgF memberF.roles)]) ∧
    release cfgF [roleA, droneRoleF, storedRoleF]
        [⟨"u", "1234", "5678", "rest", "A|Drone", 2⟩] gidF "release"
        [hiveRoleF] [memberF] =
      .ok ⟨[], [.removeOne memberF
          (getRoleByName [roleA, droneRoleF, storedRoleF] cfgF.STORED),
        .addMany memberF (get_roles_for_names [roleA, droneRoleF, storedRoleF]
          (pySplitPipe "A|Drone"))], [], true⟩ ∧
    releaseRowStep noOpFail gidF [roleA, droneRoleF, storedRoleF] "Stored"
        [memberF] 3 ([], [⟨"u", "1234", "5678", "rest", "A|Drone", 2⟩])
        ⟨"u", "1234", "5678", "rest", "A|Drone", 2⟩ =
      (([.removeOne memberF
          (getRoleByName [roleA, droneRoleF, storedRoleF] "Stored"),
        .addMany memberF (get_roles_for_names [roleA, droneRoleF, storedRoleF]
          (pySplitPipe "A|Drone"))], []), none) ∧
    get_roles_for_names [roleA, droneRoleF, storedRoleF]
        (pySplitPipe (pyJoinPipe (get_names_for_roles [roleA, droneRoleF]))) =
      [roleA, droneRoleF].map some := by
  refine ⟨storage_roundtrip_amended.1 cfgF [roleA, droneRoleF, storedRoleF]
      [memberF] [] gidF 0 "u" "1234 :: 5678 :: 2 :: rest" "1234" "5678" "2"
      "rest" memberF rfl rfl (by decide) (by decide) rfl, ?_, ?_, ?_⟩
  · have h := storage_roundtrip_amended.2.1 cfgF [roleA, droneRoleF, storedRoleF]
      [⟨"u", "1234", "5678", "rest", "A|Drone", 2⟩] gidF "release"
      [hiveRoleF] memberF [] ⟨"u", "1234", "5678", "rest", "A|Drone", 2⟩
      rfl rfl rfl
    simpa using h
  · have h := storage_roundtrip_amended.2.2.1 gidF
      [roleA, droneRoleF, storedRoleF] "Stored" [memberF] 3
      ([], [⟨"u", "1234", "5678", "rest", "A|Drone", 2⟩])
      ⟨"u", "1234", "5678", "rest", "A|Drone", 2⟩ memberF (by decide) rfl
    simpa using h
  · exact storage_roundtrip_amended.2.2.2 [roleA, droneRoleF, storedRoleF]
      [roleA, droneRoleF] (by decide) (by decide) (by decide)

end HexCorp
